import Mathlib

/-!
# Verification of the syft-objects manifest resolver and widget logic

This file shallowly embeds the parts of the OpenMined/syft-objects
repository that the specification talks about:

* the object-manifest path-resolution logic (multi-strategy `resolve`,
  `load`, `save`, `update_relative_paths`) — the Python implementation of
  `SyftObject` is not shipped in this snapshot (only its documentation,
  the frontend and scripts are), so these definitions are modelled from
  the specification text, as marked on each definition;
* the permission model (`discovery_read` gate and the four independent
  access lists), likewise modelled from the specification;
* the frontend widget logic that *is* shipped as source:
  the legacy widget's `renderTable`/`changePage` pagination
  (src/unnamed/part_000) and the React widget's bulk-delete handlers
  `deleteBulkObjects` and `handleBulkDelete`
  (src/frontend/app/widget/page.tsx).

Filesystem paths are embedded as lists of segments; a filesystem is the
list of paths of the files that exist.
-/

namespace SyftObjects

/-- An absolute filesystem path, as a list of segments from the root. -/
abbrev AbsPath := List String

/-- A filesystem state: the set (as a list) of paths that exist on disk. -/
abbrev FS := List AbsPath

/-- Joining a base directory with a relative path, interpreting a `".."`
segment as "drop the last segment of the accumulated path" (the effect of
`os.path` normalisation on a join). -/
def joinRel (base : AbsPath) (rel : List String) : AbsPath :=
  rel.foldl (fun acc seg => if seg = ".." then acc.dropLast else acc ++ [seg]) base

/-- Length of the longest common prefix of two segment lists. -/
def commonPrefixLen : List String → List String → Nat
  | a :: as, b :: bs => if a = b then commonPrefixLen as bs + 1 else 0
  | _, _ => 0

/-- Express `target` relative to `base`: climb out of the part of `base`
that is not shared with `target` using `".."` segments, then descend into
`target` (the effect of `os.path.relpath`). -/
def makeRelative (base target : AbsPath) : List String :=
  let k := commonPrefixLen base target
  List.replicate (base.length - k) ".." ++ target.drop k

theorem joinRel_append (base : AbsPath) (r1 r2 : List String) :
    joinRel base (r1 ++ r2) = joinRel (joinRel base r1) r2 := by
  simp [joinRel, List.foldl_append]

theorem joinRel_replicate_parent (base : AbsPath) (m : Nat) :
    joinRel base (List.replicate m "..") = base.take (base.length - m) := by
  induction m generalizing base with
  | zero => simp [joinRel]
  | succ m ih =>
    have hstep : joinRel base (List.replicate (m + 1) "..")
        = joinRel base.dropLast (List.replicate m "..") := by
      simp [List.replicate_succ, joinRel, List.foldl_cons]
    rw [hstep, ih, List.dropLast_eq_take, List.take_take]
    have harg : min ((base.take (base.length - 1)).length - m) (base.length - 1)
        = base.length - (m + 1) := by
      simp only [List.length_take]
      omega
    rw [harg]

theorem joinRel_no_parent (base : AbsPath) (rel : List String)
    (h : ".." ∉ rel) : joinRel base rel = base ++ rel := by
  induction rel generalizing base with
  | nil => simp [joinRel]
  | cons s rest ih =>
    have hs : s ≠ ".." := fun hc => h (hc ▸ List.mem_cons_self s rest)
    have hrest : ".." ∉ rest := fun hc => h (List.mem_cons_of_mem s hc)
    have : joinRel base (s :: rest) = joinRel (base ++ [s]) rest := by
      simp [joinRel, List.foldl_cons, hs]
    rw [this, ih (base ++ [s]) hrest]
    simp

theorem commonPrefixLen_le_left (a b : List String) :
    commonPrefixLen a b ≤ a.length := by
  induction a generalizing b with
  | nil => simp [commonPrefixLen]
  | cons x xs ih =>
    cases b with
    | nil => simp [commonPrefixLen]
    | cons y ys =>
      by_cases hxy : x = y
      · simpa [commonPrefixLen, hxy] using Nat.succ_le_succ (ih ys)
      · simp [commonPrefixLen, hxy]

theorem commonPrefixLen_take (a b : List String) :
    a.take (commonPrefixLen a b) = b.take (commonPrefixLen a b) := by
  induction a generalizing b with
  | nil => simp [commonPrefixLen]
  | cons x xs ih =>
    cases b with
    | nil => simp [commonPrefixLen]
    | cons y ys =>
      by_cases hxy : x = y
      · simp [commonPrefixLen, hxy, List.take_succ_cons, ih ys]
      · simp [commonPrefixLen, hxy]

/-- Round trip of relative-path computation: joining `base` with the
relative form of `target` recovers `target`, provided `target` is a
normalised absolute path (contains no `".."` segment). -/
theorem joinRel_makeRelative (base target : AbsPath)
    (h : ".." ∉ target) : joinRel base (makeRelative base target) = target := by
  unfold makeRelative
  have hk := commonPrefixLen_le_left base target
  have hdrop : ".." ∉ target.drop (commonPrefixLen base target) := by
    intro hc
    exact h (List.mem_of_mem_drop hc)
  rw [joinRel_append, joinRel_replicate_parent,
      joinRel_no_parent _ _ hdrop]
  have hsub : base.length - (base.length - commonPrefixLen base target)
      = commonPrefixLen base target := by omega
  rw [hsub, commonPrefixLen_take]
  exact List.take_append_drop _ _

/-- A `syft://<owner-email>/<path>` locator, split into its owner (email)
and path components.  It is a structured identifier, not a network
protocol. -/
structure SyftUrl where
  owner : String
  path : List String
deriving DecidableEq, Repr

/-- Modelled from the spec: the Object Manifest data model (§3).  The
Python `SyftObject` class is not part of this source snapshot, so the
manifest is embedded from the specification's field list: the three
`syft://` locators, the `base_path` anchor, the three `*_relative`
paths and the three `*_absolute_fallback` recovery paths. -/
structure Manifest where
  uid : String
  name : String
  private_url : SyftUrl
  mock_url : SyftUrl
  syftobject_url : SyftUrl
  base_path : Option AbsPath
  private_url_relative : Option (List String)
  mock_url_relative : Option (List String)
  syftobject_relative : Option (List String)
  private_url_absolute_fallback : Option AbsPath
  mock_url_absolute_fallback : Option AbsPath
  syftobject_absolute_fallback : Option AbsPath
deriving DecidableEq, Repr

/-- The three URL fields of a manifest that `resolve` can be asked for. -/
inductive UrlField where
  | privateUrl
  | mockUrl
  | syftobjectUrl
deriving DecidableEq, Repr

/-- The `syft://` locator stored for a given field. -/
def urlOf (m : Manifest) : UrlField → SyftUrl
  | .privateUrl => m.private_url
  | .mockUrl => m.mock_url
  | .syftobjectUrl => m.syftobject_url

/-- The `*_relative` path stored for a given field. -/
def relOf (m : Manifest) : UrlField → Option (List String)
  | .privateUrl => m.private_url_relative
  | .mockUrl => m.mock_url_relative
  | .syftobjectUrl => m.syftobject_relative

/-- The `*_absolute_fallback` path stored for a given field. -/
def fallbackOf (m : Manifest) : UrlField → Option AbsPath
  | .privateUrl => m.private_url_absolute_fallback
  | .mockUrl => m.mock_url_absolute_fallback
  | .syftobjectUrl => m.syftobject_absolute_fallback

/-- Replace the `*_relative` path of one field, leaving every other
manifest field unchanged. -/
def setRel (m : Manifest) : UrlField → Option (List String) → Manifest
  | .privateUrl, r => { m with private_url_relative := r }
  | .mockUrl, r => { m with mock_url_relative := r }
  | .syftobjectUrl, r => { m with syftobject_relative := r }

/-- Whether path `p` exists in filesystem state `fs`. -/
def existsOnDisk (fs : FS) (p : AbsPath) : Bool :=
  decide (p ∈ fs)

/-- Modelled from the spec: the conventional local path of a `syft://`
locator under a datasite root (strategy 2 of §4.1 "assumes a
conventional datasite-root layout"): `<root>/<owner-email>/<path>`. -/
def syftLocalPath (root : AbsPath) (u : SyftUrl) : AbsPath :=
  root ++ u.owner :: u.path

/-- Strategy 1 candidate: `base_path` joined with the `*_relative` field,
available only when both are set. -/
def relCandidate (m : Manifest) (f : UrlField) : Option AbsPath :=
  match m.base_path, relOf m f with
  | some b, some r => some (joinRel b r)
  | _, _ => none

/-- The expected basename of the file referenced by a field: the last
segment of its `syft://` locator path. -/
def basenameOf (m : Manifest) (f : UrlField) : Option String :=
  (urlOf m f).path.getLast?

/-- Modelled from the spec: strategy 4 candidates — the conventional
sibling locations (`data/`, `public/objects/`, `private/objects/`
relative to the manifest's own location) holding a file with the
expected basename (§4.1 item 4). -/
def heuristicCandidates (m : Manifest) (f : UrlField) : List AbsPath :=
  match m.base_path, basenameOf m f with
  | some b, some n =>
      [b ++ ["data", n], b ++ ["public", "objects", n], b ++ ["private", "objects", n]]
  | _, _ => []

/-- Modelled from the spec: strategy 4, heuristic search — the first
conventional-location candidate that exists on disk. -/
def resolveHeuristic (fs : FS) (m : Manifest) (f : UrlField) : Option AbsPath :=
  (heuristicCandidates m f).find? (existsOnDisk fs)

/-- Modelled from the spec: strategies 3 then 4 — try the stored absolute
fallback, else fall through to the heuristic search. -/
def resolveFromFallback (fs : FS) (m : Manifest) (f : UrlField) : Option AbsPath :=
  match fallbackOf m f with
  | some c => if existsOnDisk fs c then some c else resolveHeuristic fs m f
  | none => resolveHeuristic fs m f

/-- Modelled from the spec: strategies 2 to 4 — try the conventional
local path of the `syft://` locator, else fall through. -/
def resolveFromUrl (fs : FS) (root : AbsPath) (m : Manifest) (f : UrlField) :
    Option AbsPath :=
  let c := syftLocalPath root (urlOf m f)
  if existsOnDisk fs c then some c else resolveFromFallback fs m f

/-- Modelled from the spec: `resolve(manifest, field)` (§4.1) — the
Python `SyftObject._resolve_path` is not in this snapshot.  Tries the
four strategies in order (relative join, `syft://` locator, absolute
fallback, heuristic search), stopping at the first candidate that exists
on disk, and returns `none` when no strategy yields an existing path. -/
def resolve (fs : FS) (root : AbsPath) (m : Manifest) (f : UrlField) :
    Option AbsPath :=
  match relCandidate m f with
  | some c => if existsOnDisk fs c then some c else resolveFromUrl fs root m f
  | none => resolveFromUrl fs root m f

/-- The ordered list of every candidate path the four strategies of
`resolve` consider, in the order they are tried. -/
def candidates (root : AbsPath) (m : Manifest) (f : UrlField) : List AbsPath :=
  (relCandidate m f).toList ++ [syftLocalPath root (urlOf m f)]
    ++ (fallbackOf m f).toList ++ heuristicCandidates m f

theorem resolveFromFallback_eq_find (fs : FS) (m : Manifest) (f : UrlField) :
    resolveFromFallback fs m f
      = ((fallbackOf m f).toList ++ heuristicCandidates m f).find? (existsOnDisk fs) := by
  cases hfb : fallbackOf m f with
  | none => simp [resolveFromFallback, hfb, resolveHeuristic]
  | some c =>
    cases hc : existsOnDisk fs c with
    | true => simp [resolveFromFallback, hfb, hc, List.find?_cons, resolveHeuristic]
    | false => simp [resolveFromFallback, hfb, hc, List.find?_cons, resolveHeuristic]

theorem resolveFromUrl_eq_find (fs : FS) (root : AbsPath) (m : Manifest) (f : UrlField) :
    resolveFromUrl fs root m f
      = (syftLocalPath root (urlOf m f) :: ((fallbackOf m f).toList ++ heuristicCandidates m f)).find?
          (existsOnDisk fs) := by
  cases hc : existsOnDisk fs (syftLocalPath root (urlOf m f)) with
  | true => simp [resolveFromUrl, hc, List.find?_cons]
  | false => simp [resolveFromUrl, hc, List.find?_cons, resolveFromFallback_eq_find]

theorem resolve_eq_find (fs : FS) (root : AbsPath) (m : Manifest) (f : UrlField) :
    resolve fs root m f = (candidates root m f).find? (existsOnDisk fs) := by
  cases hrc : relCandidate m f with
  | none => simp [resolve, hrc, candidates, resolveFromUrl_eq_find]
  | some c =>
    cases hc : existsOnDisk fs c with
    | true => simp [resolve, hrc, hc, candidates, List.find?_cons]
    | false => simp [resolve, hrc, hc, candidates, List.find?_cons, resolveFromUrl_eq_find]

/-- C1: for every manifest and URL field, `resolve` tries the four
strategies in order (relative join, `syft://` locator, absolute
fallback, heuristic search) and returns the first candidate that exists
on disk; it returns `none` exactly when no strategy yields an existing
path (without error and without touching the manifest); and in
particular, when the relative candidate does not exist but the absolute
fallback does (and the locator path does not exist either), `resolve`
returns the fallback path. -/
theorem resolve_first_existing_strategy (fs : FS) (root : AbsPath)
    (m : Manifest) (f : UrlField) :
    resolve fs root m f = (candidates root m f).find? (existsOnDisk fs)
    ∧ (resolve fs root m f = none
        ↔ ∀ c ∈ candidates root m f, existsOnDisk fs c = false)
    ∧ (∀ b r fb, m.base_path = some b → relOf m f = some r →
        existsOnDisk fs (joinRel b r) = false →
        existsOnDisk fs (syftLocalPath root (urlOf m f)) = false →
        fallbackOf m f = some fb → existsOnDisk fs fb = true →
        resolve fs root m f = some fb) := by
  refine ⟨resolve_eq_find fs root m f, ?_, ?_⟩
  · rw [resolve_eq_find]
    rw [List.find?_eq_none]
    constructor
    · intro h c hc
      exact Bool.not_eq_true _ ▸ h c hc
    · intro h c hc
      simp [h c hc]
  · intro b r fb hb hr hrel hurl hfb hex
    have hrc : relCandidate m f = some (joinRel b r) := by
      simp [relCandidate, hb, hr]
    simp [resolve, hrc, hrel, resolveFromUrl, hurl, resolveFromFallback, hfb, hex]

/-- Concrete filesystem for the C1 scenario: only the fallback location
of the private file exists. -/
def fsC1 : FS := [["elsewhere", "real.csv"]]

/-- Concrete datasite root for the C1 scenario. -/
def rootC1 : AbsPath := ["datasites"]

/-- Concrete manifest for the C1 scenario: `base_path` points at a moved
directory lacking `../data/real.csv`, while the absolute fallback points
at an existing file elsewhere. -/
def mC1 : Manifest :=
  { uid := "u-1"
    name := "real"
    private_url := ⟨"user@example.com", ["private", "objects", "real.csv"]⟩
    mock_url := ⟨"user@example.com", ["public", "objects", "real_mock.csv"]⟩
    syftobject_url := ⟨"user@example.com", ["public", "objects", "real.syftobject.yaml"]⟩
    base_path := some ["moved", "dir"]
    private_url_relative := some ["..", "data", "real.csv"]
    mock_url_relative := none
    syftobject_relative := none
    private_url_absolute_fallback := some ["elsewhere", "real.csv"]
    mock_url_absolute_fallback := none
    syftobject_absolute_fallback := none }

/-- Witness for C1: at the concrete scenario the relative candidate and
the locator path do not exist, the fallback does, and `resolve` returns
the fallback path. -/
theorem resolve_first_existing_strategy_witness :
    existsOnDisk fsC1 (joinRel ["moved", "dir"] ["..", "data", "real.csv"]) = false
    ∧ existsOnDisk fsC1 (syftLocalPath rootC1 (urlOf mC1 .privateUrl)) = false
    ∧ existsOnDisk fsC1 ["elsewhere", "real.csv"] = true
    ∧ resolve fsC1 rootC1 mC1 .privateUrl = some ["elsewhere", "real.csv"] :=
  ⟨by decide, by decide, by decide,
    (resolve_first_existing_strategy fsC1 rootC1 mC1 .privateUrl).2.2
      ["moved", "dir"] ["..", "data", "real.csv"] ["elsewhere", "real.csv"]
      (by decide) (by decide) (by decide) (by decide) (by decide) (by decide)⟩

/-- Modelled from the spec: the five independent access-control lists of
a manifest (§3) — `discovery_read`, `mock_read`, `mock_write`,
`private_read`, `private_write`, each a list of email strings possibly
holding the sentinel `"public"`.  The backend permission code is not in
this snapshot. -/
structure Permissions where
  discovery_read : List String
  mock_read : List String
  mock_write : List String
  private_read : List String
  private_write : List String
deriving DecidableEq, Repr

/-- The four content-access kinds gated by the four non-discovery
permission lists. -/
inductive AccessKind where
  | mockRead
  | mockWrite
  | privateRead
  | privateWrite
deriving DecidableEq, Repr

/-- The permission list relevant to a given access kind. -/
def listOf (p : Permissions) : AccessKind → List String
  | .mockRead => p.mock_read
  | .mockWrite => p.mock_write
  | .privateRead => p.private_read
  | .privateWrite => p.private_write

/-- Modelled from the spec: a request of kind `k` on behalf of requester
`r` is granted only if `r` is in the relevant list or the list holds the
sentinel `"public"` (§4.1 permission evaluation). -/
def granted (p : Permissions) (k : AccessKind) (r : String) : Bool :=
  decide (r ∈ listOf p k) || decide ("public" ∈ listOf p k)

/-- Modelled from the spec: the `discovery_read` gate — whether requester
`r` may learn that the object exists at all. -/
def canDiscover (p : Permissions) (r : String) : Bool :=
  decide (r ∈ p.discovery_read) || decide ("public" ∈ p.discovery_read)

/-- One object as the listing endpoint sees it: identity, permissions and
the two file-existence booleans. -/
structure ObjEntry where
  uid : String
  name : String
  perms : Permissions
  mockExists : Bool
  privateExists : Bool
deriving DecidableEq, Repr

/-- Modelled from the spec: the listing endpoint returns exactly the
objects the requester can discover; an undiscoverable object is omitted
entirely, fields and existence booleans included (§4.1). -/
def listObjects (objs : List ObjEntry) (r : String) : List ObjEntry :=
  objs.filter (fun o => canDiscover o.perms r)

/-- Result of a content fetch for one of an object's files. -/
inductive FetchResult where
  | ok
  | permissionDenied
deriving DecidableEq, Repr

/-- Modelled from the spec: fetching the mock file's content is gated by
the `mock_read` list. -/
def fetchMock (p : Permissions) (r : String) : FetchResult :=
  if granted p .mockRead r then .ok else .permissionDenied

/-- Modelled from the spec: fetching the private file's content is gated
by the `private_read` list. -/
def fetchPrivate (p : Permissions) (r : String) : FetchResult :=
  if granted p .privateRead r then .ok else .permissionDenied

/-- The mock-readable / private-readable flags a listing shows requester
`r` for a discovered object. -/
def listingFlags (o : ObjEntry) (r : String) : Bool × Bool :=
  (granted o.perms .mockRead r, granted o.perms .privateRead r)

/-- C2: an object appears in a requester's listing exactly when the
requester can discover it; so when the requester is in neither the
object's `discovery_read` list nor covered by `"public"`, the object is
omitted from the listing entirely — no field of it is returned — no
matter what its `mock_read` or `private_read` lists say. -/
theorem listing_discovery_gate (objs : List ObjEntry) (r : String) (o : ObjEntry) :
    (o ∈ listObjects objs r ↔ o ∈ objs ∧ canDiscover o.perms r = true)
    ∧ (r ∉ o.perms.discovery_read → "public" ∉ o.perms.discovery_read →
        o ∉ listObjects objs r) := by
  constructor
  · simp [listObjects, List.mem_filter]
  · intro h1 h2 hmem
    have hd : canDiscover o.perms r = true :=
      (List.mem_filter.mp hmem).2
    simp [canDiscover, h1, h2] at hd

/-- Concrete object for the C2 witness: the requester `a@x.com` is in
both `mock_read` and `private_read` but not in `discovery_read`, which
does not hold `"public"` either. -/
def oC2 : ObjEntry :=
  { uid := "u-2"
    name := "hidden"
    perms :=
      { discovery_read := ["b@x.com"]
        mock_read := ["a@x.com"]
        mock_write := []
        private_read := ["a@x.com"]
        private_write := [] }
    mockExists := true
    privateExists := true }

/-- Witness for C2: at the concrete object, `a@x.com` is in `mock_read`
and `private_read`, yet the listing for `a@x.com` omits the object. -/
theorem listing_discovery_gate_witness :
    "a@x.com" ∈ oC2.perms.mock_read
    ∧ "a@x.com" ∈ oC2.perms.private_read
    ∧ oC2 ∉ listObjects [oC2] "a@x.com" :=
  ⟨by decide, by decide,
    (listing_discovery_gate [oC2] "a@x.com" oC2).2 (by decide) (by decide)⟩

/-- C3: a request of kind `k` by requester `r` is granted exactly when
`r` is in the object's `k` list or that list holds `"public"`; and the
grant depends only on the `k` list, so the four lists act independently
— membership in a write list alone never grants read, and conversely. -/
theorem access_iff_membership (p : Permissions) (k : AccessKind) (r : String) :
    (granted p k r = true ↔ r ∈ listOf p k ∨ "public" ∈ listOf p k)
    ∧ (∀ q : Permissions, listOf q k = listOf p k → granted q k r = granted p k r) := by
  constructor
  · simp [granted]
  · intro q hq
    simp [granted, hq]

/-- Concrete permissions for the C3 witness: `a@x.com` may write the
mock file but appears in no read list. -/
def pC3 : Permissions :=
  { discovery_read := ["public"]
    mock_read := []
    mock_write := ["a@x.com"]
    private_read := []
    private_write := [] }

/-- Concrete permissions differing from `pC3` in every list except
`mock_read`. -/
def qC3 : Permissions :=
  { discovery_read := []
    mock_read := []
    mock_write := ["b@x.com", "public"]
    private_read := ["a@x.com"]
    private_write := ["public"] }

/-- Witness for C3: with `a@x.com` only in `mock_write`, a mock read is
denied while a mock write is granted; and changing every other list
(`qC3` versus `pC3`) leaves the mock-read decision unchanged. -/
theorem access_iff_membership_witness :
    granted pC3 .mockRead "a@x.com" = false
    ∧ granted pC3 .mockWrite "a@x.com" = true
    ∧ granted qC3 .mockRead "a@x.com" = granted pC3 .mockRead "a@x.com" :=
  ⟨by decide, by decide,
    (access_iff_membership pC3 .mockRead "a@x.com").2 qC3 (by decide)⟩

/-- C8: a requester in `mock_read` but not `private_read` (neither list
holding `"public"`) gets the mock file's content but is denied the
private file's content. -/
theorem mock_read_without_private_read (p : Permissions) (r : String)
    (h1 : r ∈ p.mock_read) (h2 : r ∉ p.private_read)
    (h3 : "public" ∉ p.private_read) :
    fetchMock p r = .ok ∧ fetchPrivate p r = .permissionDenied := by
  constructor
  · simp [fetchMock, granted, listOf, h1]
  · simp [fetchPrivate, granted, listOf, h2, h3]

/-- Concrete object for the C8 witness: `discovery_read=["public"]`,
`mock_read=["a@x.com"]`, `private_read=["b@x.com"]`. -/
def oC8 : ObjEntry :=
  { uid := "u-8"
    name := "demo-vs-real"
    perms :=
      { discovery_read := ["public"]
        mock_read := ["a@x.com"]
        mock_write := []
        private_read := ["b@x.com"]
        private_write := [] }
    mockExists := true
    privateExists := true }

/-- Witness for C8: the listing for `a@x.com` shows the concrete object
with mock readable and private denied, and the content fetches agree. -/
theorem mock_read_without_private_read_witness :
    oC8 ∈ listObjects [oC8] "a@x.com"
    ∧ listingFlags oC8 "a@x.com" = (true, false)
    ∧ fetchMock oC8.perms "a@x.com" = .ok
    ∧ fetchPrivate oC8.perms "a@x.com" = .permissionDenied := by
  refine ⟨by decide, by decide, ?_⟩
  exact mock_read_without_private_read oC8.perms "a@x.com"
    (by decide) (by decide) (by decide)

/-- Modelled from the spec: the fields a manifest YAML document may
carry; every field is optional because a document on disk may omit any
of them (§4.1 `load`). -/
structure YamlDoc where
  uid : Option String
  name : Option String
  private_url : Option SyftUrl
  mock_url : Option SyftUrl
  syftobject_url : Option SyftUrl
  base_path : Option AbsPath
  private_url_relative : Option (List String)
  mock_url_relative : Option (List String)
  syftobject_relative : Option (List String)
  private_url_absolute_fallback : Option AbsPath
  mock_url_absolute_fallback : Option AbsPath
  syftobject_absolute_fallback : Option AbsPath
deriving DecidableEq, Repr

/-- The hard-failure taxonomy of `load` (§7): malformed YAML or a
document missing one of the required fields. -/
inductive ParseError where
  | malformedYaml
  | missingRequiredField
deriving DecidableEq, Repr

/-- Modelled from the spec: `load(path)` (§4.1) — the Python
`SyftObject.load_yaml` is not in this snapshot.  The file's content is
embedded as `none` when the YAML is malformed and `some doc` otherwise.
`load` fails with a `ParseError` when the YAML is malformed or one of
the required fields `uid`, `private_url`, `mock_url` is missing, and
otherwise builds the manifest, setting `base_path` to the parent
directory of `path` when the document carries no `base_path`. -/
def load (path : AbsPath) (content : Option YamlDoc) : Except ParseError Manifest :=
  match content with
  | none => .error .malformedYaml
  | some d =>
    match d.uid, d.private_url, d.mock_url with
    | some u, some pu, some mu =>
        .ok
          { uid := u
            name := d.name.getD ""
            private_url := pu
            mock_url := mu
            syftobject_url := d.syftobject_url.getD ⟨"", []⟩
            base_path := some (d.base_path.getD path.dropLast)
            private_url_relative := d.private_url_relative
            mock_url_relative := d.mock_url_relative
            syftobject_relative := d.syftobject_relative
            private_url_absolute_fallback := d.private_url_absolute_fallback
            mock_url_absolute_fallback := d.mock_url_absolute_fallback
            syftobject_absolute_fallback := d.syftobject_absolute_fallback }
    | _, _, _ => .error .missingRequiredField

/-- C5: `load` fails with a `ParseError` exactly when the YAML is
malformed or one of the required fields `uid`, `private_url`, `mock_url`
is missing; on success, a document without `base_path` yields a manifest
whose `base_path` is the parent directory of the loaded path, while a
`base_path` present in the document is kept unchanged. -/
theorem load_parse_error_and_autodetect (path : AbsPath) (content : Option YamlDoc) :
    ((∃ e, load path content = .error e)
      ↔ content = none
        ∨ ∃ d, content = some d
            ∧ (d.uid = none ∨ d.private_url = none ∨ d.mock_url = none))
    ∧ (∀ d m, content = some d → load path content = .ok m →
        (d.base_path = none → m.base_path = some path.dropLast)
        ∧ ∀ b, d.base_path = some b → m.base_path = some b) := by
  constructor
  · cases content with
    | none => simp [load]
    | some d =>
      cases hu : d.uid <;> cases hp : d.private_url <;> cases hm : d.mock_url <;>
        simp [load, hu, hp, hm]
  · intro d m hcd hok
    subst hcd
    cases hu : d.uid with
    | none => simp [load, hu] at hok
    | some u =>
      cases hp : d.private_url with
      | none => simp [load, hu, hp] at hok
      | some pu =>
        cases hm : d.mock_url with
        | none => simp [load, hu, hp, hm] at hok
        | some mu =>
          simp only [load, hu, hp, hm, Except.ok.injEq] at hok
          constructor
          · intro hb
            rw [← hok]
            simp [hb]
          · intro b hb
            rw [← hok]
            simp [hb]

/-- Concrete manifest document for the C5 witness, with no `base_path`
of its own. -/
def dC5 : YamlDoc :=
  { uid := some "u-5"
    name := some "dataset"
    private_url := some ⟨"user@example.com", ["private", "objects", "dataset.csv"]⟩
    mock_url := some ⟨"user@example.com", ["public", "objects", "dataset_mock.csv"]⟩
    syftobject_url := some ⟨"user@example.com", ["public", "objects", "dataset.syftobject.yaml"]⟩
    base_path := none
    private_url_relative := none
    mock_url_relative := none
    syftobject_relative := none
    private_url_absolute_fallback := none
    mock_url_absolute_fallback := none
    syftobject_absolute_fallback := none }

/-- Concrete manifest path for the C5 witness. -/
def pathC5 : AbsPath := ["project", "metadata", "dataset.syftobject.yaml"]

/-- Witness for C5: loading the concrete document from
`project/metadata/dataset.syftobject.yaml` succeeds and auto-detects
`base_path = project/metadata`; and a malformed file fails with a
`ParseError`. -/
theorem load_parse_error_and_autodetect_witness :
    (∃ m, load pathC5 (some dC5) = Except.ok m
        ∧ m.base_path = some ["project", "metadata"])
    ∧ (∃ e, load pathC5 (none : Option YamlDoc) = .error e) := by
  constructor
  · refine ⟨(load pathC5 (some dC5)).toOption.get (by rfl), ?_, ?_⟩
    · rfl
    · have h := (load_parse_error_and_autodetect pathC5 (some dC5)).2 dC5
        ((load pathC5 (some dC5)).toOption.get (by rfl)) rfl (by rfl)
      exact h.1 rfl
  · exact ((load_parse_error_and_autodetect pathC5 (none : Option YamlDoc)).1).mpr
      (Or.inl rfl)

/-- Modelled from the spec: recompute one field's `*_relative` path from
whichever resolved path currently exists, relative to `base_path`
(§4.1 `update_relative_paths`); when nothing resolves (or no `base_path`
is set) the field is left unchanged. -/
def updateFieldRel (fs : FS) (root : AbsPath) (m : Manifest) (f : UrlField) : Manifest :=
  match m.base_path, resolve fs root m f with
  | some b, some p => setRel m f (some (makeRelative b p))
  | _, _ => m

/-- Modelled from the spec: `update_relative_paths(manifest)` (§4.1) —
recompute and store all three `*_relative` fields. -/
def update_relative_paths (fs : FS) (root : AbsPath) (m : Manifest) : Manifest :=
  updateFieldRel fs root
    (updateFieldRel fs root (updateFieldRel fs root m .privateUrl) .mockUrl)
    .syftobjectUrl

theorem setRel_base_path (m : Manifest) (f : UrlField) (r : Option (List String)) :
    (setRel m f r).base_path = m.base_path := by
  cases f <;> rfl

theorem setRel_urlOf (m : Manifest) (f g : UrlField) (r : Option (List String)) :
    urlOf (setRel m f r) g = urlOf m g := by
  cases f <;> cases g <;> rfl

theorem setRel_fallbackOf (m : Manifest) (f g : UrlField) (r : Option (List String)) :
    fallbackOf (setRel m f r) g = fallbackOf m g := by
  cases f <;> cases g <;> rfl

theorem setRel_relOf_self (m : Manifest) (f : UrlField) (r : Option (List String)) :
    relOf (setRel m f r) f = r := by
  cases f <;> rfl

theorem setRel_relOf_other (m : Manifest) (f g : UrlField) (r : Option (List String))
    (h : g ≠ f) : relOf (setRel m f r) g = relOf m g := by
  cases f <;> cases g <;> first | rfl | exact absurd rfl h

theorem setRel_eq_self (m : Manifest) (f : UrlField) (r : Option (List String))
    (h : relOf m f = r) : setRel m f r = m := by
  cases f <;> (cases m; simp_all [setRel, relOf])

theorem setRel_fields_preserved (m : Manifest) (f : UrlField) (r : Option (List String)) :
    (setRel m f r).uid = m.uid ∧ (setRel m f r).name = m.name
    ∧ (setRel m f r).private_url = m.private_url
    ∧ (setRel m f r).mock_url = m.mock_url
    ∧ (setRel m f r).syftobject_url = m.syftobject_url := by
  cases f <;> simp [setRel]

/-- `resolve` only looks at `base_path` and the given field's locator,
relative path and fallback, so two manifests agreeing there resolve the
field identically. -/
theorem resolve_congr (fs : FS) (root : AbsPath) (m m' : Manifest) (f : UrlField)
    (hb : m'.base_path = m.base_path) (hr : relOf m' f = relOf m f)
    (hu : urlOf m' f = urlOf m f) (hf : fallbackOf m' f = fallbackOf m f) :
    resolve fs root m' f = resolve fs root m f := by
  simp only [resolve, resolveFromUrl, resolveFromFallback, resolveHeuristic,
    relCandidate, heuristicCandidates, basenameOf, hb, hr, hu, hf]

theorem resolve_setRel_other (fs : FS) (root : AbsPath) (m : Manifest)
    (f g : UrlField) (r : Option (List String)) (h : g ≠ f) :
    resolve fs root (setRel m f r) g = resolve fs root m g :=
  resolve_congr fs root m (setRel m f r) g (setRel_base_path m f r)
    (setRel_relOf_other m f g r h) (setRel_urlOf m f g r)
    (setRel_fallbackOf m f g r)

/-- A resolved path exists on disk. -/
theorem resolve_mem (fs : FS) (root : AbsPath) (m : Manifest) (f : UrlField)
    (p : AbsPath) (h : resolve fs root m f = some p) : p ∈ fs := by
  rw [resolve_eq_find] at h
  have := List.find?_some h
  simpa [existsOnDisk] using this

theorem updateFieldRel_parts (fs : FS) (root : AbsPath) (m : Manifest) (f : UrlField) :
    ∃ r, updateFieldRel fs root m f = setRel m f r := by
  cases hb : m.base_path with
  | none =>
    exact ⟨relOf m f, by simp [updateFieldRel, hb, setRel_eq_self]⟩
  | some b =>
    cases hres : resolve fs root m f with
    | none => exact ⟨relOf m f, by simp [updateFieldRel, hb, hres, setRel_eq_self]⟩
    | some p => exact ⟨some (makeRelative b p), by simp [updateFieldRel, hb, hres]⟩

theorem updateFieldRel_base_path (fs : FS) (root : AbsPath) (m : Manifest) (f : UrlField) :
    (updateFieldRel fs root m f).base_path = m.base_path := by
  obtain ⟨r, hr⟩ := updateFieldRel_parts fs root m f
  rw [hr, setRel_base_path]

theorem updateFieldRel_urlOf (fs : FS) (root : AbsPath) (m : Manifest) (f g : UrlField) :
    urlOf (updateFieldRel fs root m f) g = urlOf m g := by
  obtain ⟨r, hr⟩ := updateFieldRel_parts fs root m f
  rw [hr, setRel_urlOf]

theorem updateFieldRel_fallbackOf (fs : FS) (root : AbsPath) (m : Manifest) (f g : UrlField) :
    fallbackOf (updateFieldRel fs root m f) g = fallbackOf m g := by
  obtain ⟨r, hr⟩ := updateFieldRel_parts fs root m f
  rw [hr, setRel_fallbackOf]

theorem updateFieldRel_relOf_other (fs : FS) (root : AbsPath) (m : Manifest)
    (f g : UrlField) (h : g ≠ f) :
    relOf (updateFieldRel fs root m f) g = relOf m g := by
  obtain ⟨r, hr⟩ := updateFieldRel_parts fs root m f
  rw [hr, setRel_relOf_other m f g r h]

/-- Recomputing one relative field does not change what any field
resolves to, as long as the filesystem holds only normalised paths. -/
theorem resolve_updateFieldRel (fs : FS) (root : AbsPath) (m : Manifest)
    (f g : UrlField) (hfs : ∀ q ∈ fs, ".." ∉ q) :
    resolve fs root (updateFieldRel fs root m f) g = resolve fs root m g := by
  by_cases hg : g = f
  · subst hg
    cases hb : m.base_path with
    | none => simp [updateFieldRel, hb]
    | some b =>
      cases hres : resolve fs root m g with
      | none => simp [updateFieldRel, hb, hres]
      | some p =>
        have hmem : p ∈ fs := resolve_mem fs root m g p hres
        have hnp : ".." ∉ p := hfs p hmem
        have hstep : updateFieldRel fs root m g = setRel m g (some (makeRelative b p)) := by
          simp [updateFieldRel, hb, hres]
        rw [hstep]
        have hrc : relCandidate (setRel m g (some (makeRelative b p))) g = some p := by
          simp [relCandidate, setRel_base_path, setRel_relOf_self, hb,
            joinRel_makeRelative b p hnp]
        have hex : existsOnDisk fs p = true := by
          simpa [existsOnDisk] using hmem
        simp [resolve, hrc, hex]
  · obtain ⟨r, hr⟩ := updateFieldRel_parts fs root m f
    rw [hr, resolve_setRel_other fs root m f g r hg]

/-- A manifest whose given relative field already records its resolved
path is a fixed point of `updateFieldRel`. -/
theorem updateFieldRel_eq_self (fs : FS) (root : AbsPath) (m : Manifest) (f : UrlField)
    (h : ∀ b p, m.base_path = some b → resolve fs root m f = some p →
      relOf m f = some (makeRelative b p)) :
    updateFieldRel fs root m f = m := by
  cases hb : m.base_path with
  | none => simp [updateFieldRel, hb]
  | some b =>
    cases hres : resolve fs root m f with
    | none => simp [updateFieldRel, hb, hres]
    | some p =>
      simp [updateFieldRel, hb, hres, setRel_eq_self m f _ (h b p hb hres)]

theorem updateFieldRel_of_resolved (fs : FS) (root : AbsPath) (m : Manifest)
    (f : UrlField) (b p : AbsPath) (hb : m.base_path = some b)
    (hres : resolve fs root m f = some p) :
    updateFieldRel fs root m f = setRel m f (some (makeRelative b p)) := by
  unfold updateFieldRel
  rw [hb, hres]

theorem resolve_update_relative_paths (fs : FS) (root : AbsPath) (m : Manifest)
    (g : UrlField) (hfs : ∀ q ∈ fs, ".." ∉ q) :
    resolve fs root (update_relative_paths fs root m) g = resolve fs root m g := by
  unfold update_relative_paths
  rw [resolve_updateFieldRel _ _ _ _ _ hfs, resolve_updateFieldRel _ _ _ _ _ hfs,
    resolve_updateFieldRel _ _ _ _ _ hfs]

theorem update_relative_paths_base_path (fs : FS) (root : AbsPath) (m : Manifest) :
    (update_relative_paths fs root m).base_path = m.base_path := by
  unfold update_relative_paths
  rw [updateFieldRel_base_path, updateFieldRel_base_path, updateFieldRel_base_path]

/-- After `update_relative_paths`, every field that currently resolves
has its relative path recorded as the resolved path made relative to
`base_path`. -/
theorem update_relative_paths_records (fs : FS) (root : AbsPath) (m : Manifest)
    (hfs : ∀ q ∈ fs, ".." ∉ q) (f : UrlField) (b p : AbsPath)
    (hb : (update_relative_paths fs root m).base_path = some b)
    (hres : resolve fs root (update_relative_paths fs root m) f = some p) :
    relOf (update_relative_paths fs root m) f = some (makeRelative b p) := by
  have hbm : m.base_path = some b := by
    rw [← update_relative_paths_base_path fs root m]
    exact hb
  have hresm : resolve fs root m f = some p := by
    rw [← resolve_update_relative_paths fs root m f hfs]
    exact hres
  cases f with
  | privateUrl =>
    have h1 : updateFieldRel fs root m .privateUrl
        = setRel m .privateUrl (some (makeRelative b p)) :=
      updateFieldRel_of_resolved fs root m .privateUrl b p hbm hresm
    unfold update_relative_paths
    rw [updateFieldRel_relOf_other fs root
        (updateFieldRel fs root (updateFieldRel fs root m .privateUrl) .mockUrl)
        .syftobjectUrl .privateUrl (by decide),
      updateFieldRel_relOf_other fs root (updateFieldRel fs root m .privateUrl)
        .mockUrl .privateUrl (by decide),
      h1, setRel_relOf_self]
  | mockUrl =>
    have hb1 : (updateFieldRel fs root m .privateUrl).base_path = some b := by
      rw [updateFieldRel_base_path]
      exact hbm
    have hres1 : resolve fs root (updateFieldRel fs root m .privateUrl) .mockUrl = some p := by
      rw [resolve_updateFieldRel fs root m .privateUrl .mockUrl hfs]
      exact hresm
    have h2 : updateFieldRel fs root (updateFieldRel fs root m .privateUrl) .mockUrl
        = setRel (updateFieldRel fs root m .privateUrl) .mockUrl
            (some (makeRelative b p)) :=
      updateFieldRel_of_resolved fs root _ .mockUrl b p hb1 hres1
    unfold update_relative_paths
    rw [updateFieldRel_relOf_other fs root
        (updateFieldRel fs root (updateFieldRel fs root m .privateUrl) .mockUrl)
        .syftobjectUrl .mockUrl (by decide),
      h2, setRel_relOf_self]
  | syftobjectUrl =>
    have hb2 : (updateFieldRel fs root (updateFieldRel fs root m .privateUrl)
        .mockUrl).base_path = some b := by
      rw [updateFieldRel_base_path, updateFieldRel_base_path]
      exact hbm
    have hres2 : resolve fs root
        (updateFieldRel fs root (updateFieldRel fs root m .privateUrl) .mockUrl)
        .syftobjectUrl = some p := by
      rw [resolve_updateFieldRel _ _ _ _ _ hfs, resolve_updateFieldRel _ _ _ _ _ hfs]
      exact hresm
    have h3 : updateFieldRel fs root
        (updateFieldRel fs root (updateFieldRel fs root m .privateUrl) .mockUrl)
        .syftobjectUrl
        = setRel (updateFieldRel fs root (updateFieldRel fs root m .privateUrl) .mockUrl)
            .syftobjectUrl (some (makeRelative b p)) :=
      updateFieldRel_of_resolved fs root _ .syftobjectUrl b p hb2 hres2
    unfold update_relative_paths
    rw [h3, setRel_relOf_self]

/-- C6: with an unchanged filesystem (of normalised paths),
`update_relative_paths` is idempotent — applying it twice yields exactly
the manifest obtained by applying it once — and `resolve` after
`update_relative_paths` returns the same (currently existing) path for
every field as before, including an absolute fallback the file moved
to. -/
theorem update_relative_paths_idempotent (fs : FS) (root : AbsPath) (m : Manifest)
    (hfs : ∀ q ∈ fs, ".." ∉ q) :
    update_relative_paths fs root (update_relative_paths fs root m)
        = update_relative_paths fs root m
    ∧ ∀ f, resolve fs root (update_relative_paths fs root m) f = resolve fs root m f := by
  have hfix : ∀ f, updateFieldRel fs root (update_relative_paths fs root m) f
      = update_relative_paths fs root m := by
    intro f
    exact updateFieldRel_eq_self fs root _ f
      (fun b p hb hres => update_relative_paths_records fs root m hfs f b p hb hres)
  constructor
  · show updateFieldRel fs root
        (updateFieldRel fs root
          (updateFieldRel fs root (update_relative_paths fs root m) .privateUrl)
          .mockUrl)
        .syftobjectUrl
      = update_relative_paths fs root m
    rw [hfix .privateUrl, hfix .mockUrl, hfix .syftobjectUrl]
  · intro f
    exact resolve_update_relative_paths fs root m f hfs

/-- Concrete filesystem for the C6 witness: the private file has moved
to its fallback location. -/
def fsC6 : FS := [["new", "real.csv"]]

/-- Concrete datasite root for the C6 witness. -/
def rootC6 : AbsPath := ["datasites"]

/-- Concrete manifest for the C6 witness: the relative path no longer
resolves, only the absolute fallback does. -/
def mC6 : Manifest :=
  { uid := "u-6"
    name := "moved"
    private_url := ⟨"user@example.com", ["private", "objects", "real.csv"]⟩
    mock_url := ⟨"user@example.com", ["public", "objects", "real_mock.csv"]⟩
    syftobject_url := ⟨"user@example.com", ["public", "objects", "real.syftobject.yaml"]⟩
    base_path := some ["proj", "meta"]
    private_url_relative := some ["..", "data", "real.csv"]
    mock_url_relative := none
    syftobject_relative := none
    private_url_absolute_fallback := some ["new", "real.csv"]
    mock_url_absolute_fallback := none
    syftobject_absolute_fallback := none }

/-- Witness for C6: at the concrete moved-file scenario, updating twice
equals updating once, and after the update the private field still
resolves to the fallback location the file moved to. -/
theorem update_relative_paths_idempotent_witness :
    (∀ q ∈ fsC6, ".." ∉ q)
    ∧ update_relative_paths fsC6 rootC6 (update_relative_paths fsC6 rootC6 mC6)
        = update_relative_paths fsC6 rootC6 mC6
    ∧ resolve fsC6 rootC6 (update_relative_paths fsC6 rootC6 mC6) .privateUrl
        = some ["new", "real.csv"] :=
  ⟨by decide,
    (update_relative_paths_idempotent fsC6 rootC6 mC6 (by decide)).1,
    by
      rw [(update_relative_paths_idempotent fsC6 rootC6 mC6 (by decide)).2 .privateUrl]
      decide⟩

theorem update_relative_paths_fields (fs : FS) (root : AbsPath) (m : Manifest) :
    (update_relative_paths fs root m).uid = m.uid
    ∧ (update_relative_paths fs root m).name = m.name
    ∧ (update_relative_paths fs root m).private_url = m.private_url
    ∧ (update_relative_paths fs root m).mock_url = m.mock_url
    ∧ (update_relative_paths fs root m).syftobject_url = m.syftobject_url := by
  unfold update_relative_paths
  obtain ⟨r1, h1⟩ := updateFieldRel_parts fs root m .privateUrl
  obtain ⟨r2, h2⟩ := updateFieldRel_parts fs root
    (updateFieldRel fs root m .privateUrl) .mockUrl
  obtain ⟨r3, h3⟩ := updateFieldRel_parts fs root
    (updateFieldRel fs root (updateFieldRel fs root m .privateUrl) .mockUrl) .syftobjectUrl
  rw [h3, h2, h1]
  exact ⟨rfl, rfl, rfl, rfl, rfl⟩

theorem update_relative_paths_fallbackOf (fs : FS) (root : AbsPath) (m : Manifest)
    (g : UrlField) :
    fallbackOf (update_relative_paths fs root m) g = fallbackOf m g := by
  unfold update_relative_paths
  rw [updateFieldRel_fallbackOf, updateFieldRel_fallbackOf, updateFieldRel_fallbackOf]

/-- Serialize a manifest into a YAML document, field for field. -/
def manifestToDoc (m : Manifest) : YamlDoc :=
  { uid := some m.uid
    name := some m.name
    private_url := some m.private_url
    mock_url := some m.mock_url
    syftobject_url := some m.syftobject_url
    base_path := m.base_path
    private_url_relative := m.private_url_relative
    mock_url_relative := m.mock_url_relative
    syftobject_relative := m.syftobject_relative
    private_url_absolute_fallback := m.private_url_absolute_fallback
    mock_url_absolute_fallback := m.mock_url_absolute_fallback
    syftobject_absolute_fallback := m.syftobject_absolute_fallback }

/-- Modelled from the spec: `save(manifest, path, use_relative_paths)`
(§4.1) — the Python `SyftObject.save_yaml` is not in this snapshot.
When `use_relative_paths` is set the relative fields are recomputed
first (same logic as `update_relative_paths`); the absolute fallbacks
are always written out. -/
def save (fs : FS) (root : AbsPath) (m : Manifest) (use_relative_paths : Bool) :
    YamlDoc :=
  manifestToDoc (if use_relative_paths then update_relative_paths fs root m else m)

theorem load_manifestToDoc (p : AbsPath) (m : Manifest) (b : AbsPath)
    (hb : m.base_path = some b) :
    load p (some (manifestToDoc m)) = .ok m := by
  cases m
  subst hb
  rfl

theorem load_ok_base_path (p : AbsPath) (c : Option YamlDoc) (m : Manifest)
    (h : load p c = .ok m) : ∃ b, m.base_path = some b := by
  cases c with
  | none => simp [load] at h
  | some d =>
    cases hu : d.uid with
    | none => simp [load, hu] at h
    | some u =>
      cases hp : d.private_url with
      | none => simp [load, hu, hp] at h
      | some pu =>
        cases hm : d.mock_url with
        | none => simp [load, hu, hp, hm] at h
        | some mu =>
          simp only [load, hu, hp, hm, Except.ok.injEq] at h
          exact ⟨_, by rw [← h]⟩

/-- C7: for a manifest just loaded from a path (no intervening
mutation), saving it and loading the result back yields a manifest whose
`resolve` result agrees with the original on all three fields, for
either value of `use_relative_paths`; and `save` always writes the
`*_absolute_fallback` fields out unchanged. -/
theorem save_load_round_trip (fs : FS) (root p : AbsPath) (d0 : Option YamlDoc)
    (m : Manifest) (flag : Bool) (hfs : ∀ q ∈ fs, ".." ∉ q)
    (hload : load p d0 = .ok m) :
    (∃ m', load p (some (save fs root m flag)) = .ok m'
        ∧ ∀ f, resolve fs root m' f = resolve fs root m f)
    ∧ (save fs root m flag).private_url_absolute_fallback
        = m.private_url_absolute_fallback
    ∧ (save fs root m flag).mock_url_absolute_fallback
        = m.mock_url_absolute_fallback
    ∧ (save fs root m flag).syftobject_absolute_fallback
        = m.syftobject_absolute_fallback := by
  obtain ⟨b, hb⟩ := load_ok_base_path p d0 m hload
  refine ⟨⟨if flag then update_relative_paths fs root m else m, ?_, ?_⟩, ?_, ?_, ?_⟩
  · unfold save
    apply load_manifestToDoc p _ b
    cases flag with
    | true => simpa [update_relative_paths_base_path] using hb
    | false => simpa using hb
  · intro f
    cases flag with
    | true =>
      simpa using resolve_update_relative_paths fs root m f hfs
    | false => rfl
  · cases flag with
    | true => exact update_relative_paths_fallbackOf fs root m .privateUrl
    | false => rfl
  · cases flag with
    | true => exact update_relative_paths_fallbackOf fs root m .mockUrl
    | false => rfl
  · cases flag with
    | true => exact update_relative_paths_fallbackOf fs root m .syftobjectUrl
    | false => rfl

/-- Concrete filesystem for the C7 witness: the private file exists at
its relative location, the mock file at its fallback location. -/
def fsC7 : FS := [["proj", "data", "real.csv"], ["moved", "real_mock.csv"]]

/-- Concrete datasite root for the C7 witness. -/
def rootC7 : AbsPath := ["datasites"]

/-- Concrete manifest path for the C7 witness. -/
def pC7 : AbsPath := ["proj", "meta", "dataset.syftobject.yaml"]

/-- Concrete manifest for the C7 witness. -/
def mC7 : Manifest :=
  { uid := "u-7"
    name := "roundtrip"
    private_url := ⟨"user@example.com", ["private", "objects", "real.csv"]⟩
    mock_url := ⟨"user@example.com", ["public", "objects", "real_mock.csv"]⟩
    syftobject_url := ⟨"user@example.com", ["public", "objects", "dataset.syftobject.yaml"]⟩
    base_path := some ["proj", "meta"]
    private_url_relative := some ["..", "data", "real.csv"]
    mock_url_relative := some ["..", "data", "real_mock.csv"]
    syftobject_relative := none
    private_url_absolute_fallback := some ["old", "real.csv"]
    mock_url_absolute_fallback := some ["moved", "real_mock.csv"]
    syftobject_absolute_fallback := none }

/-- Concrete on-disk document for the C7 witness, loading to `mC7`. -/
def dC7 : YamlDoc := manifestToDoc mC7

/-- Witness for C7: the concrete manifest loads from its document, the
save/load round trip with `use_relative_paths` preserves every field's
`resolve` result, and the saved document keeps the private fallback. -/
theorem save_load_round_trip_witness :
    load pC7 (some dC7) = Except.ok mC7
    ∧ (∃ m', load pC7 (some (save fsC7 rootC7 mC7 true)) = .ok m'
        ∧ ∀ f, resolve fsC7 rootC7 m' f = resolve fsC7 rootC7 mC7 f)
    ∧ (save fsC7 rootC7 mC7 true).private_url_absolute_fallback
        = mC7.private_url_absolute_fallback := by
  have h := save_load_round_trip fsC7 rootC7 pC7 (some dC7) mC7 true
    (by decide) (by rfl)
  exact ⟨by rfl, h.1, h.2.1⟩

/-- Ceiling division on naturals, the value `Math.ceil(n / ipp)` takes
for the natural inputs of the legacy widget. -/
def ceilDiv (n ipp : Nat) : Nat :=
  (n + ipp - 1) / ipp

/-- Embedded from `src/unnamed/part_000` `renderTable` (lines 541-545):
the clamp of the current page into `[1, max 1 (ceil(n/ipp))]`, applied
in the source's order (upper bound first, then lower bound). -/
def clampedPage (n ipp : Nat) (cp : Int) : Int :=
  let totalPages : Nat := max 1 (ceilDiv n ipp)
  let cp1 : Int := if cp > (totalPages : Int) then (totalPages : Int) else cp
  if cp1 < 1 then 1 else cp1

/-- What one `renderTable` call of the legacy widget computes: the
clamped page, the page count, the disabled states of the Previous/Next
buttons and the slice bounds of the rendered rows. -/
structure RenderOutcome where
  page : Int
  totalPages : Nat
  prevDisabled : Bool
  nextDisabled : Bool
  sliceStart : Int
  sliceEnd : Int
deriving DecidableEq, Repr

/-- Embedded from `src/unnamed/part_000` `renderTable` (lines 538-557)
and `updatePaginationControls` (lines 653-658): clamp the page, derive
the button states, and slice `[(page-1)*ipp, min((page-1)*ipp+ipp, n))`
out of the `n` filtered objects. -/
def renderTable (n ipp : Nat) (cp : Int) : RenderOutcome :=
  let totalPages : Nat := max 1 (ceilDiv n ipp)
  let page : Int := clampedPage n ipp cp
  let start : Int := (page - 1) * (ipp : Int)
  { page := page
    totalPages := totalPages
    prevDisabled := decide (page = 1)
    nextDisabled := decide (page = (totalPages : Int))
    sliceStart := start
    sliceEnd := min (start + (ipp : Int)) (n : Int) }

/-- Embedded from `src/unnamed/part_000` `changePage` (lines 661-667):
add the direction to the current page, clamp (lower bound first, then
upper bound), and re-render. -/
def changePage (n ipp : Nat) (cp direction : Int) : RenderOutcome :=
  let totalPages : Nat := max 1 (ceilDiv n ipp)
  let cp1 : Int := cp + direction
  let cp2 : Int := if cp1 < 1 then 1 else cp1
  let cp3 : Int := if cp2 > (totalPages : Int) then (totalPages : Int) else cp2
  renderTable n ipp cp3

theorem ceilDiv_pred_mul_lt (n ipp : Nat) (hn : 0 < n) (hi : 0 < ipp) :
    (ceilDiv n ipp - 1) * ipp < n := by
  have h1 : ceilDiv n ipp = (n - 1) / ipp + 1 := by
    unfold ceilDiv
    have h2 : n + ipp - 1 = (n - 1) + ipp := by omega
    rw [h2, Nat.add_div_right _ hi]
  rw [h1]
  simp only [Nat.add_sub_cancel]
  have := Nat.div_mul_le_self (n - 1) ipp
  omega

theorem one_le_ceilDiv (n ipp : Nat) (hn : 0 < n) (hi : 0 < ipp) :
    1 ≤ ceilDiv n ipp := by
  unfold ceilDiv
  rw [Nat.le_div_iff_mul_le hi]
  omega

theorem ceilDiv_zero_left (ipp : Nat) (hi : 0 < ipp) : ceilDiv 0 ipp = 0 := by
  unfold ceilDiv
  exact Nat.div_eq_of_lt (by omega)

theorem clampedPage_bounds (n ipp : Nat) (cp : Int) :
    1 ≤ clampedPage n ipp cp
    ∧ clampedPage n ipp cp ≤ ((max 1 (ceilDiv n ipp) : Nat) : Int) := by
  dsimp only [clampedPage]
  set M := max 1 (ceilDiv n ipp) with hM
  have h1 : 1 ≤ M := le_max_left 1 _
  split_ifs <;> constructor <;> omega

theorem clampedPage_preclamp (n ipp : Nat) (x : Int) :
    clampedPage n ipp
      (let cp2 : Int := if x < 1 then 1 else x
        if cp2 > ((max 1 (ceilDiv n ipp) : Nat) : Int)
          then ((max 1 (ceilDiv n ipp) : Nat) : Int) else cp2)
      = clampedPage n ipp x := by
  dsimp only [clampedPage]
  set M := max 1 (ceilDiv n ipp) with hM
  have h1 : 1 ≤ M := le_max_left 1 _
  split_ifs <;> omega

/-- C9: the legacy widget clamps the current page into
`[1, max 1 (ceil(n/ipp))]`, so the rendered slice bounds
`(page-1)*ipp` and `min((page-1)*ipp+ipp, n)` always lie within the
filtered list, with a non-empty-list start strictly inside it; the
Previous/Next buttons are disabled exactly at page 1 and at the last
page; and `changePage` renders exactly what `renderTable` renders at
the shifted page. -/
theorem renderTable_pagination_safe (n ipp : Nat) (cp : Int) (hi : 0 < ipp) :
    1 ≤ (renderTable n ipp cp).page
    ∧ (renderTable n ipp cp).page ≤ (((renderTable n ipp cp).totalPages : Nat) : Int)
    ∧ (renderTable n ipp cp).totalPages = max 1 (ceilDiv n ipp)
    ∧ 0 ≤ (renderTable n ipp cp).sliceStart
    ∧ (renderTable n ipp cp).sliceStart ≤ (renderTable n ipp cp).sliceEnd
    ∧ (renderTable n ipp cp).sliceEnd ≤ (n : Int)
    ∧ (0 < n → (renderTable n ipp cp).sliceStart < (n : Int))
    ∧ ((renderTable n ipp cp).prevDisabled = true ↔ (renderTable n ipp cp).page = 1)
    ∧ ((renderTable n ipp cp).nextDisabled = true
        ↔ (renderTable n ipp cp).page = (((renderTable n ipp cp).totalPages : Nat) : Int))
    ∧ ∀ direction, changePage n ipp cp direction = renderTable n ipp (cp + direction) := by
  obtain ⟨hlo, hhi⟩ := clampedPage_bounds n ipp cp
  have hstart_lt : 0 < n → (clampedPage n ipp cp - 1) * (ipp : Int) < (n : Int) := by
    intro hn
    have hmax : max 1 (ceilDiv n ipp) = ceilDiv n ipp :=
      max_eq_right (one_le_ceilDiv n ipp hn hi)
    have hc1 : 1 ≤ ceilDiv n ipp := one_le_ceilDiv n ipp hn hi
    have hkey : (ceilDiv n ipp - 1) * ipp < n := ceilDiv_pred_mul_lt n ipp hn hi
    have hkey' : ((ceilDiv n ipp : Int) - 1) * (ipp : Int) < (n : Int) := by
      have hkey2 := (Nat.cast_lt (α := ℤ)).mpr hkey
      rw [Nat.cast_mul] at hkey2
      have h2 : ((ceilDiv n ipp - 1 : Nat) : Int) = (ceilDiv n ipp : Int) - 1 := by
        omega
      rw [h2] at hkey2
      exact hkey2
    have hle : clampedPage n ipp cp - 1 ≤ (ceilDiv n ipp : Int) - 1 := by
      rw [hmax] at hhi
      omega
    calc (clampedPage n ipp cp - 1) * (ipp : Int)
        ≤ ((ceilDiv n ipp : Int) - 1) * (ipp : Int) :=
          mul_le_mul_of_nonneg_right hle (by positivity)
      _ < (n : Int) := hkey'
  have hstart_le : (clampedPage n ipp cp - 1) * (ipp : Int) ≤ (n : Int) := by
    cases Nat.eq_zero_or_pos n with
    | inl h0 =>
      subst h0
      have hmax : max 1 (ceilDiv 0 ipp) = 1 := by
        simp [ceilDiv_zero_left ipp hi]
      rw [hmax] at hhi
      have hpage1 : clampedPage 0 ipp cp = 1 := by omega
      simp [hpage1]
    | inr hpos => exact le_of_lt (hstart_lt hpos)
  refine ⟨hlo, hhi, rfl, ?_, ?_, ?_, hstart_lt, ?_, ?_, ?_⟩
  · show 0 ≤ (clampedPage n ipp cp - 1) * (ipp : Int)
    have : 0 ≤ clampedPage n ipp cp - 1 := by omega
    positivity
  · show (clampedPage n ipp cp - 1) * (ipp : Int)
      ≤ min ((clampedPage n ipp cp - 1) * (ipp : Int) + (ipp : Int)) (n : Int)
    apply le_min
    · omega
    · exact hstart_le
  · exact min_le_right _ _
  · simp [renderTable]
  · simp [renderTable]
  · intro direction
    show renderTable n ipp _ = renderTable n ipp (cp + direction)
    unfold renderTable
    rw [clampedPage_preclamp n ipp (cp + direction)]

/-- Witness for C9: the pagination safety properties at a concrete
filtered list of 123 objects with 50 items per page and a stale page
value of 7. -/
theorem renderTable_pagination_safe_witness :
    (0 : Nat) < 50
    ∧ (1 ≤ (renderTable 123 50 7).page
        ∧ (renderTable 123 50 7).page ≤ (((renderTable 123 50 7).totalPages : Nat) : Int)
        ∧ (renderTable 123 50 7).totalPages = max 1 (ceilDiv 123 50)
        ∧ 0 ≤ (renderTable 123 50 7).sliceStart
        ∧ (renderTable 123 50 7).sliceStart ≤ (renderTable 123 50 7).sliceEnd
        ∧ (renderTable 123 50 7).sliceEnd ≤ (123 : Int)
        ∧ ((0 : Nat) < 123 → (renderTable 123 50 7).sliceStart < (123 : Int))
        ∧ ((renderTable 123 50 7).prevDisabled = true ↔ (renderTable 123 50 7).page = 1)
        ∧ ((renderTable 123 50 7).nextDisabled = true
            ↔ (renderTable 123 50 7).page = (((renderTable 123 50 7).totalPages : Nat) : Int))
        ∧ ∀ direction, changePage 123 50 7 direction = renderTable 123 50 (7 + direction)) :=
  ⟨by decide, renderTable_pagination_safe 123 50 7 (by decide)⟩

/-- The user-visible outcome of one bulk-delete interaction in the React
widget: whether an overall error was raised (carrying the failure count
of its "Failed to delete N objects" message), which success/failure
counts were reported to the user, and the selection left behind. -/
structure BulkDeleteView where
  overallError : Option Nat
  reportedSuccessCount : Option Nat
  reportedFailureCount : Option Nat
  newSelection : List String
deriving DecidableEq, Repr

/-- Embedded from `src/frontend/app/widget/page.tsx` `deleteBulkObjects`
(`Widget` component, lines 847-874): all selected objects are deleted in
parallel; if any response fails, an error `Failed to delete N objects`
is thrown, so the selection is not cleared and no success count is ever
reported; only when every delete succeeds is the selection cleared.
`ok u` embeds whether the server delete of uid `u` succeeds. -/
def deleteBulkObjects (ok : String → Bool) (selected : List String) : BulkDeleteView :=
  let failedDeletes := selected.filter (fun u => !(ok u))
  if failedDeletes.length > 0 then
    { overallError := some failedDeletes.length
      reportedSuccessCount := none
      reportedFailureCount := none
      newSelection := selected }
  else
    { overallError := none
      reportedSuccessCount := none
      reportedFailureCount := none
      newSelection := [] }

/-- Embedded from `src/frontend/app/widget/page.tsx` `handleBulkDelete`
(`WidgetPage` component, lines 1820-1871): each delete is attempted
independently and its own failure is caught; success and failure counts
are computed, a summary alert reports both counts when something failed,
and the selection drops exactly the successfully deleted uids (only
touched when at least one succeeded). -/
def handleBulkDelete (ok : String → Bool) (selected : List String) : BulkDeleteView :=
  let successfulUids := selected.filter ok
  let successCount := successfulUids.length
  let failureCount := (selected.filter (fun u => !(ok u))).length
  { overallError := none
    reportedSuccessCount := if failureCount > 0 then some successCount else none
    reportedFailureCount := if failureCount > 0 then some failureCount else none
    newSelection :=
      if successCount > 0 then
        selected.filter (fun u => !(successfulUids.contains u))
      else selected }

/-- Server behaviour for the C4 evidence: deleting `uid-2` fails (file
lock), deleting anything else succeeds. -/
def okC4 : String → Bool :=
  fun u => decide (u ≠ "uid-2")

/-- The three selected uids of the C4 evidence. -/
def selC4 : List String := ["uid-1", "uid-2", "uid-3"]

/-- C4: evaluating both bulk-delete implementations at a bulk delete of
three objects where exactly one delete fails.  The `Widget` component's
`deleteBulkObjects` escalates the partial failure to an overall error
(`Failed to delete 1 objects`), reports no success count and keeps the
whole selection, contradicting the specified partial-failure handling;
the `WidgetPage` component's `handleBulkDelete` reports "2 succeeded,
1 failed" without an overall failure, as specified. -/
theorem bulk_delete_partial_failure_escalates :
    deleteBulkObjects okC4 selC4 =
      { overallError := some 1
        reportedSuccessCount := none
        reportedFailureCount := none
        newSelection := ["uid-1", "uid-2", "uid-3"] }
    ∧ handleBulkDelete okC4 selC4 =
      { overallError := none
        reportedSuccessCount := some 2
        reportedFailureCount := some 1
        newSelection := ["uid-2"] } := by
  decide

/-- C10: after `handleBulkDelete`, a uid is selected exactly when it was
selected before and its delete failed — the successfully deleted uids
are removed, the failed ones remain, and no uid outside the previous
selection is ever added. -/
theorem handleBulkDelete_selection (ok : String → Bool) (selected : List String)
    (u : String) :
    u ∈ (handleBulkDelete ok selected).newSelection
      ↔ u ∈ selected ∧ ok u = false := by
  unfold handleBulkDelete
  by_cases hs : (selected.filter ok).length > 0
  · simp only [hs, if_true]
    simp [List.mem_filter, List.contains, List.elem_eq_mem]
    tauto
  · have hnil : selected.filter ok = [] := by
      cases h : selected.filter ok with
      | nil => rfl
      | cons a l => rw [h] at hs; simp at hs
    have hall : ∀ v ∈ selected, ok v = false := by
      intro v hv
      have hnp : ¬(ok v = true) := List.filter_eq_nil_iff.mp hnil v hv
      simpa using hnp
    simp only [hs, if_false]
    constructor
    · intro hmem
      exact ⟨hmem, hall u hmem⟩
    · exact fun h => h.1

end SyftObjects
